import Mathlib

/-!
Shallow embedding of the `atlas-app-logs-aggregator` repository: the
credential exchange of `src/auth.py` and the cursor-paginated log retrieval
engine of `src/log_pager.py` (final revision) and `src/logs.py` (earlier
revision).

The HTTP transport is modelled by a scripted server: a list of HTTP
responses, consumed one per GET request the engine issues.  Every run
records the requests it issued, the pages it decoded and the accumulator's
final value, alongside the returned value or the exception that escaped.
Logging (`src/logger.py`) is a side effect with no influence on control flow
or data and is not modelled.
-/

namespace AtlasLogs

/-- A Python value as it occurs in query-parameter dicts and decoded JSON
fields: `None` (also the decoding of JSON `null`), strings, and integers. -/
inductive PyVal where
  | null
  | vstr (s : String)
  | vint (n : Int)
deriving DecidableEq, Repr

/-- Python truthiness of the values above: `None`, `""` and `0` are falsy. -/
def PyVal.truthy : PyVal → Bool
  | .null => false
  | .vstr s => s != ""
  | .vint n => n != 0

/-- A Python `dict` with string keys: an insertion-ordered association list
whose keys are unique. -/
abbrev Dict := List (String × PyVal)

/-- Lookup in a dict: `some` of the value at the first matching key, `none`
when the key is absent. -/
def Dict.lookup? : Dict → String → Option PyVal
  | [], _ => none
  | (k', v') :: d, k => if k' == k then some v' else Dict.lookup? d k

/-- Binding one key as a Python dict literal `{**d, k: v}` does: an existing
key keeps its position and gets the new value, a new key is appended. -/
def Dict.set : Dict → String → PyVal → Dict
  | [], k, v => [(k, v)]
  | (k', v') :: d, k, v => if k' == k then (k, v) :: d else (k', v') :: Dict.set d k v

/-- A decoded JSON page from the logs endpoint: the `logs` array plus the two
optional continuation fields.  `none` models an absent key; a JSON `null`
stored under the key is `some PyVal.null`. -/
structure Page (α : Type) where
  logs : List α
  nextEndDate : Option PyVal
  nextSkip : Option PyVal
deriving DecidableEq, Repr

/-- An HTTP response to a logs GET: status code and decoded JSON body. -/
structure HttpResponse (α : Type) where
  status : Nat
  json : Page α
deriving DecidableEq, Repr

/-- The argument record of one `requests.get` call issued by the engine. -/
structure GetRequest where
  url : String
  headers : List (String × String)
  params : Dict
deriving DecidableEq, Repr

/-- Modelled from the spec: `auth.py` and `log_pager.py` import
`ADMIN_API_BASE_URL` from a `config` module that is not among the source
files.  The spec's section on outside collaborators describes it as the base URL
`{base}` of the admin API, and the earlier revision `logs.py` pins the same
constant to the Atlas admin API URL used here. -/
def ADMIN_API_BASE_URL : String := "https://services.cloud.mongodb.com/api/admin/v3.0"

/-- Exceptions `authenticate` can raise: `raise_for_status` on a non-success
status, or the `KeyError` from `response.json()["access_token"]`. -/
inductive AuthError where
  | httpError (status : Nat)
  | keyError
deriving DecidableEq, Repr

/-- The argument record of the one `requests.post` call `authenticate`
issues. -/
structure PostRequest where
  url : String
  headers : List (String × String)
  jsonBody : List (String × PyVal)
deriving DecidableEq, Repr

/-- An HTTP response to the login POST: status code and decoded JSON
object. -/
structure AuthResponse where
  status : Nat
  json : List (String × PyVal)
deriving DecidableEq, Repr

/-- `authenticate` from `src/auth.py`, run against the response the server
gives to its single POST.  Returns the list of requests issued (always
exactly one) and either the `access_token` field of the body or the
exception raised: `raise_for_status` turns a status of 400 or above into an
HTTP error, and a success body without the `access_token` key raises a
`KeyError` at the subscript. -/
def authenticate (public_api_key private_api_key : String) (resp : AuthResponse) :
    List PostRequest × Except AuthError PyVal :=
  let url := ADMIN_API_BASE_URL ++ "/auth/providers/mongodb-cloud/login"
  let hdrs := [("Content-Type", "application/json"), ("Accept", "application/json")]
  let payload := [("username", PyVal.vstr public_api_key), ("apiKey", PyVal.vstr private_api_key)]
  let req : PostRequest := { url := url, headers := hdrs, jsonBody := payload }
  if 400 ≤ resp.status then ([req], .error (.httpError resp.status))
  else
    match Dict.lookup? resp.json "access_token" with
    | some tok => ([req], .ok tok)
    | none => ([req], .error .keyError)

/-- The single POST request `authenticate` issues, spelled out. -/
def authRequest (public_api_key private_api_key : String) : PostRequest :=
  { url := ADMIN_API_BASE_URL ++ "/auth/providers/mongodb-cloud/login"
  , headers := [("Content-Type", "application/json"), ("Accept", "application/json")]
  , jsonBody := [("username", PyVal.vstr public_api_key), ("apiKey", PyVal.vstr private_api_key)] }

/-- Exceptions escaping the retrieval engine, plus one modelling artifact,
`serverSilent`, for a scripted server with no response left for a request the
engine issues (the real program would still be waiting there, so no run of
interest reaches it). -/
inductive PagerError where
  | noMorePages
  | httpError (status : Nat)
  | serverSilent
deriving DecidableEq, Repr

/-- The attribute record built by `LogPager.__init__` in `src/log_pager.py`
(the `logger` attribute carries no control-flow or data influence and is not
modelled). -/
structure LogPager where
  logs_endpoint : String
  query_params : Dict
  auth_headers : List (String × String)
deriving DecidableEq, Repr

/-- `LogPager.__init__` from `src/log_pager.py`. -/
def LogPager.init (project_id app_id access_token : String) (query_params : Dict) : LogPager :=
  { logs_endpoint := ADMIN_API_BASE_URL ++ "/groups/" ++ project_id ++ "/apps/" ++ app_id ++ "/logs"
  , query_params := query_params
  , auth_headers := [("Authorization", "Bearer " ++ access_token)] }

/-- `next_end_date = prev_page.get("nextEndDate") if prev_page else None`:
an absent key, a stored JSON `null`, and an absent previous page all yield
Python `None`. -/
def nextEndDateOf : Option (Page α) → PyVal
  | none => .null
  | some p => p.nextEndDate.getD .null

/-- `next_skip = prev_page.get("nextSkip") if prev_page else None`. -/
def nextSkipOf : Option (Page α) → PyVal
  | none => .null
  | some p => p.nextSkip.getD .null

/-- The guard `if prev_page and not next_end_date` heading `get_next_page`:
a page dict always carries its `logs` key (the caller subscripts it), so a
previous page is truthy exactly when it exists. -/
def noMoreGuard (prevPage : Option (Page α)) : Bool :=
  prevPage.isSome && ! (nextEndDateOf prevPage).truthy

/-- The GET request `get_next_page` issues:
`params = {**self.query_params, "end_date": next_end_date, "skip": next_skip}`
sent to `self.logs_endpoint` with `self.auth_headers`. -/
def LogPager.nextRequest (self : LogPager) (prevPage : Option (Page α)) : GetRequest :=
  { url := self.logs_endpoint
  , headers := self.auth_headers
  , params := Dict.set (Dict.set self.query_params "end_date" (nextEndDateOf prevPage))
      "skip" (nextSkipOf prevPage) }

/-- The attribute record a `LogPager` method leaves behind: the bodies of
`get_next_page` and `get_all_logs` contain no assignment to any attribute of
`self`, so each attribute after the call is the attribute before it. -/
def LogPager.postState (self : LogPager) : LogPager :=
  { logs_endpoint := self.logs_endpoint
  , query_params := self.query_params
  , auth_headers := self.auth_headers }

/-- One call of `LogPager.get_next_page` from `src/log_pager.py`, run against
the response `resp` the server gives to the request the call issues: the
guard raises `noMorePages` before any request, then `raise_for_status`
raises on a status of 400 or above, else the decoded page is returned.  The
issued request (when one is issued) and the post-call attribute record are
reported alongside the outcome. -/
def LogPager.get_next_page (self : LogPager) (prevPage : Option (Page α)) (resp : HttpResponse α) :
    (Option GetRequest × Except PagerError (Page α)) × LogPager :=
  if noMoreGuard prevPage then ((none, .error .noMorePages), self.postState)
  else if 400 ≤ resp.status then
    ((some (self.nextRequest prevPage), .error (.httpError resp.status)), self.postState)
  else ((some (self.nextRequest prevPage), .ok resp.json), self.postState)

/-- Observables of one `get_all_logs` run against a scripted server: the GET
requests issued in order, the pages decoded in order, the `logs` accumulator
at the moment the loop stopped, and the returned list or escaped
exception. -/
structure RunResult (α : Type) where
  requests : List GetRequest
  pages : List (Page α)
  acc : List α
  outcome : Except PagerError (List α)
deriving Repr

/-- The `while has_next` loop of `LogPager.get_all_logs` in
`src/log_pager.py`, one scripted response consumed per request issued.
`logs` and `prevPage` are the loop's mutable locals; `has_next` holds at
entry and is re-established before every recursive call by the
`"nextEndDate" in page` test.  An exhausted script yields the `serverSilent`
artifact — unless the guard of `get_next_page`, which runs before any
request, raises first. -/
def LogPager.get_all_logs_go : LogPager → List (HttpResponse α) → List α → Option (Page α) →
    RunResult α × LogPager
  | self, [], logs, prevPage =>
    (⟨[], [], logs, .error (if noMoreGuard prevPage then .noMorePages else .serverSilent)⟩,
      self.postState)
  | self, resp :: rest, logs, prevPage =>
    match self.get_next_page prevPage resp with
    | ((req?, .error e), self1) => (⟨req?.toList, [], logs, .error e⟩, self1)
    | ((req?, .ok page), self1) =>
      if page.nextEndDate.isSome then
        let r := LogPager.get_all_logs_go self1 rest (logs ++ page.logs) (some page)
        (⟨req?.toList ++ r.1.requests, page :: r.1.pages, r.1.acc, r.1.outcome⟩, r.2)
      else
        (⟨req?.toList, [page], logs ++ page.logs, .ok (logs ++ page.logs)⟩, self1)

/-- `LogPager.get_all_logs` from `src/log_pager.py`: `logs = []`,
`prev_page = None`, then the `while has_next` loop. -/
def LogPager.get_all_logs (self : LogPager) (script : List (HttpResponse α)) :
    RunResult α × LogPager :=
  LogPager.get_all_logs_go self script [] none

/-- A continuation value the spec calls well formed: a non-null, non-empty
string (the protocol's `nextEndDate` is a string when present). -/
def goodCursorVal : PyVal → Bool
  | .vstr s => s != ""
  | _ => false

/-- A well-formed server page sequence: whenever `nextEndDate` is present it
is a non-null, non-empty string. -/
def wellFormedScript (script : List (HttpResponse α)) : Bool :=
  script.all fun r =>
    match r.json.nextEndDate with
    | none => true
    | some v => goodCursorVal v

/-- A response that lets the walk continue: a success status, and a
`nextEndDate` present as a non-null, non-empty string. -/
def advancing (r : HttpResponse α) : Bool :=
  decide (r.status < 400) &&
    match r.json.nextEndDate with
    | none => false
    | some v => goodCursorVal v

namespace logsRev

/-- `ADMIN_API_BASE_URL` as the earlier revision `src/logs.py` defines it at
module level. -/
def ADMIN_API_BASE_URL : String := "https://services.cloud.mongodb.com/api/admin/v3.0"

/-- The attribute record built by `LogPager.__init__` in `src/logs.py`. -/
structure LogPager where
  logs_endpoint : String
  query_params : Dict
  auth_headers : List (String × String)
deriving DecidableEq, Repr

/-- `LogPager.__init__` from `src/logs.py`. -/
def LogPager.init (project_id app_id access_token : String) (query_params : Dict) : LogPager :=
  { logs_endpoint := ADMIN_API_BASE_URL ++ "/groups/" ++ project_id ++ "/apps/" ++ app_id ++ "/logs"
  , query_params := query_params
  , auth_headers := [("Authorization", "Bearer " ++ access_token)] }

/-- The GET request `get_next_page` of `src/logs.py` issues. -/
def LogPager.nextRequest (self : LogPager) (prevPage : Option (Page α)) : GetRequest :=
  { url := self.logs_endpoint
  , headers := self.auth_headers
  , params := Dict.set (Dict.set self.query_params "end_date" (nextEndDateOf prevPage))
      "skip" (nextSkipOf prevPage) }

/-- The attribute record a `src/logs.py` `LogPager` method leaves behind: its
method bodies assign to no attribute of `self` either. -/
def LogPager.postState (self : LogPager) : LogPager :=
  { logs_endpoint := self.logs_endpoint
  , query_params := self.query_params
  , auth_headers := self.auth_headers }

/-- One call of `LogPager.get_next_page` from `src/logs.py`: the same body as
the final revision's, without the logging statements. -/
def LogPager.get_next_page (self : LogPager) (prevPage : Option (Page α)) (resp : HttpResponse α) :
    (Option GetRequest × Except PagerError (Page α)) × LogPager :=
  if noMoreGuard prevPage then ((none, .error .noMorePages), self.postState)
  else if 400 ≤ resp.status then
    ((some (self.nextRequest prevPage), .error (.httpError resp.status)), self.postState)
  else ((some (self.nextRequest prevPage), .ok resp.json), self.postState)

/-- The `while has_next` loop of `LogPager.get_all_logs` in `src/logs.py`:
the same loop as the final revision's, without the page counter and the
logging statement. -/
def LogPager.get_all_logs_go : LogPager → List (HttpResponse α) → List α → Option (Page α) →
    RunResult α × LogPager
  | self, [], logs, prevPage =>
    (⟨[], [], logs, .error (if noMoreGuard prevPage then .noMorePages else .serverSilent)⟩,
      self.postState)
  | self, resp :: rest, logs, prevPage =>
    match self.get_next_page prevPage resp with
    | ((req?, .error e), self1) => (⟨req?.toList, [], logs, .error e⟩, self1)
    | ((req?, .ok page), self1) =>
      if page.nextEndDate.isSome then
        let r := LogPager.get_all_logs_go self1 rest (logs ++ page.logs) (some page)
        (⟨req?.toList ++ r.1.requests, page :: r.1.pages, r.1.acc, r.1.outcome⟩, r.2)
      else
        (⟨req?.toList, [page], logs ++ page.logs, .ok (logs ++ page.logs)⟩, self1)

/-- `LogPager.get_all_logs` from `src/logs.py`. -/
def LogPager.get_all_logs (self : LogPager) (script : List (HttpResponse α)) :
    RunResult α × LogPager :=
  LogPager.get_all_logs_go self script [] none

end logsRev

/-- Server page sequence for the spec's concrete two-page scenario: page A
carries both continuation fields, page B carries none. -/
def twoPageScript (e1 e2 e3 : α) : List (HttpResponse α) :=
  [ ⟨200, ⟨[e1, e2], some (.vstr "2024-01-01T12:00:00.000Z"), some (.vint 2)⟩⟩
  , ⟨200, ⟨[e3], none, none⟩⟩ ]

/-- A concrete filter set of the shape `main` builds: `start_date`,
`end_date` and `type` always bound, the date bounds here non-`None`. -/
def sampleFilters : Dict :=
  [ ("start_date", .vstr "2024-01-01T00:00:00.000Z")
  , ("end_date", .vstr "2024-01-02T00:00:00.000Z")
  , ("type", .null) ]

/-- A concrete pager built over the sample filter set. -/
def samplePager : LogPager := LogPager.init "abc123" "def456" "sampletoken" sampleFilters

/-- First sample page: two entries, both continuation fields present. -/
def samplePage1 : Page Nat := ⟨[10, 11], some (.vstr "2024-01-01T18:00:00.000Z"), some (.vint 2)⟩

/-- Second sample page: one entry, both continuation fields present. -/
def samplePage2 : Page Nat := ⟨[12], some (.vstr "2024-01-01T12:00:00.000Z"), some (.vint 3)⟩

/-- Third sample page: three entries, no continuation fields — terminal. -/
def samplePage3 : Page Nat := ⟨[13, 14, 15], none, none⟩

/-- A well-formed three-page server script, all fetches succeeding. -/
def sampleScript : List (HttpResponse Nat) := [⟨200, samplePage1⟩, ⟨200, samplePage2⟩, ⟨200, samplePage3⟩]

/-- A page whose `nextEndDate` key is present but bound to JSON `null`. -/
def nullCursorPage : Page Nat := ⟨[7], some .null, none⟩

/-! Helper lemmas about the dict operations and the engine's branches. -/

theorem Dict.lookup_set_self (d : Dict) (k : String) (v : PyVal) :
    Dict.lookup? (Dict.set d k v) k = some v := by
  induction d with
  | nil => simp [Dict.set, Dict.lookup?]
  | cons kv d ih =>
    obtain ⟨k', v'⟩ := kv
    by_cases h : k' = k
    · subst h
      simp [Dict.set, Dict.lookup?]
    · simp only [Dict.set, Dict.lookup?, beq_iff_eq, h, if_false]
      exact ih

theorem Dict.lookup_set_ne (d : Dict) (k k' : String) (v : PyVal) (h : k' ≠ k) :
    Dict.lookup? (Dict.set d k v) k' = Dict.lookup? d k' := by
  induction d with
  | nil => simp [Dict.set, Dict.lookup?, beq_iff_eq, Ne.symm h]
  | cons kv d ih =>
    obtain ⟨a, b⟩ := kv
    by_cases ha : a = k
    · subst ha
      simp [Dict.set, Dict.lookup?, beq_iff_eq, Ne.symm h]
    · simp only [Dict.set, Dict.lookup?, beq_iff_eq, ha, if_false]
      by_cases hb : a = k'
      · simp [hb]
      · simp only [hb, if_false]
        exact ih

theorem noMoreGuard_none : noMoreGuard (none : Option (Page α)) = false := rfl

theorem goodCursorVal_truthy (v : PyVal) (h : goodCursorVal v = true) : v.truthy = true := by
  cases v with
  | null => simp [goodCursorVal] at h
  | vstr s => simpa [goodCursorVal, PyVal.truthy] using h
  | vint n => simp [goodCursorVal] at h

theorem noMoreGuard_of_good (p : Page α) (v : PyVal) (h : p.nextEndDate = some v)
    (hv : goodCursorVal v = true) : noMoreGuard (some p) = false := by
  simp [noMoreGuard, nextEndDateOf, h, goodCursorVal_truthy v hv]

theorem LogPager.nextRequest_params (self : LogPager) (p : Option (Page α)) :
    (self.nextRequest p).params =
      Dict.set (Dict.set self.query_params "end_date" (nextEndDateOf p)) "skip"
        (nextSkipOf p) := rfl

theorem authenticate_http (pub priv : String) (resp : AuthResponse) (hs : 400 ≤ resp.status) :
    authenticate pub priv resp = ([authRequest pub priv], .error (.httpError resp.status)) := by
  simp only [authenticate]
  rw [if_pos hs]
  rfl

theorem authenticate_token (pub priv : String) (resp : AuthResponse) (tok : PyVal)
    (hs : ¬ 400 ≤ resp.status) (hl : Dict.lookup? resp.json "access_token" = some tok) :
    authenticate pub priv resp = ([authRequest pub priv], .ok tok) := by
  simp only [authenticate]
  rw [if_neg hs, hl]
  rfl

theorem authenticate_missing (pub priv : String) (resp : AuthResponse)
    (hs : ¬ 400 ≤ resp.status) (hl : Dict.lookup? resp.json "access_token" = none) :
    authenticate pub priv resp = ([authRequest pub priv], .error .keyError) := by
  simp only [authenticate]
  rw [if_neg hs, hl]
  rfl

theorem LogPager.get_next_page_guard (self : LogPager) (prevPage : Option (Page α))
    (resp : HttpResponse α) (h : noMoreGuard prevPage = true) :
    self.get_next_page prevPage resp = ((none, .error .noMorePages), self) := by
  unfold LogPager.get_next_page
  rw [h]
  rfl

theorem LogPager.get_next_page_http (self : LogPager) (prevPage : Option (Page α))
    (resp : HttpResponse α) (h : noMoreGuard prevPage = false) (hs : 400 ≤ resp.status) :
    self.get_next_page prevPage resp =
      ((some (self.nextRequest prevPage), .error (.httpError resp.status)), self) := by
  unfold LogPager.get_next_page
  rw [h]
  simp only [Bool.false_eq_true, if_false, if_pos hs]
  rfl

theorem LogPager.get_next_page_ok (self : LogPager) (prevPage : Option (Page α))
    (resp : HttpResponse α) (h : noMoreGuard prevPage = false) (hs : resp.status < 400) :
    self.get_next_page prevPage resp =
      ((some (self.nextRequest prevPage), .ok resp.json), self) := by
  unfold LogPager.get_next_page
  rw [h]
  simp only [Bool.false_eq_true, if_false, if_neg (Nat.not_le.mpr hs)]
  rfl

theorem LogPager.go_nil (self : LogPager) (logs : List α) (prevPage : Option (Page α)) :
    LogPager.get_all_logs_go self [] logs prevPage =
      (⟨[], [], logs, .error (if noMoreGuard prevPage then .noMorePages else .serverSilent)⟩,
        self) := rfl

theorem LogPager.go_cons_guard (self : LogPager) (resp : HttpResponse α)
    (rest : List (HttpResponse α)) (logs : List α) (prevPage : Option (Page α))
    (h : noMoreGuard prevPage = true) :
    LogPager.get_all_logs_go self (resp :: rest) logs prevPage =
      (⟨[], [], logs, .error .noMorePages⟩, self) := by
  unfold LogPager.get_all_logs_go
  rw [LogPager.get_next_page_guard self prevPage resp h]
  rfl

theorem LogPager.go_cons_http (self : LogPager) (resp : HttpResponse α)
    (rest : List (HttpResponse α)) (logs : List α) (prevPage : Option (Page α))
    (h : noMoreGuard prevPage = false) (hs : 400 ≤ resp.status) :
    LogPager.get_all_logs_go self (resp :: rest) logs prevPage =
      (⟨[self.nextRequest prevPage], [], logs, .error (.httpError resp.status)⟩, self) := by
  unfold LogPager.get_all_logs_go
  rw [LogPager.get_next_page_http self prevPage resp h hs]
  rfl

theorem LogPager.go_cons_done (self : LogPager) (resp : HttpResponse α)
    (rest : List (HttpResponse α)) (logs : List α) (prevPage : Option (Page α))
    (h : noMoreGuard prevPage = false) (hs : resp.status < 400)
    (hk : resp.json.nextEndDate = none) :
    LogPager.get_all_logs_go self (resp :: rest) logs prevPage =
      (⟨[self.nextRequest prevPage], [resp.json], logs ++ resp.json.logs,
        .ok (logs ++ resp.json.logs)⟩, self) := by
  unfold LogPager.get_all_logs_go
  rw [LogPager.get_next_page_ok self prevPage resp h hs]
  simp [hk]

theorem LogPager.go_cons_next (self : LogPager) (resp : HttpResponse α)
    (rest : List (HttpResponse α)) (logs : List α) (prevPage : Option (Page α))
    (h : noMoreGuard prevPage = false) (hs : resp.status < 400)
    (hk : resp.json.nextEndDate.isSome = true) :
    LogPager.get_all_logs_go self (resp :: rest) logs prevPage =
      (⟨self.nextRequest prevPage ::
          (LogPager.get_all_logs_go self rest (logs ++ resp.json.logs) (some resp.json)).1.requests,
        resp.json ::
          (LogPager.get_all_logs_go self rest (logs ++ resp.json.logs) (some resp.json)).1.pages,
        (LogPager.get_all_logs_go self rest (logs ++ resp.json.logs) (some resp.json)).1.acc,
        (LogPager.get_all_logs_go self rest (logs ++ resp.json.logs) (some resp.json)).1.outcome⟩,
       (LogPager.get_all_logs_go self rest (logs ++ resp.json.logs) (some resp.json)).2) := by
  conv =>
    lhs
    rw [LogPager.get_all_logs_go]
    rw [LogPager.get_next_page_ok self prevPage resp h hs]
  simp [hk]

theorem LogPager.go_post (self : LogPager) (script : List (HttpResponse α)) :
    ∀ (logs : List α) (prevPage : Option (Page α)),
      (LogPager.get_all_logs_go self script logs prevPage).2 = self := by
  induction script with
  | nil =>
    intro logs prevPage
    rw [LogPager.go_nil]
  | cons resp rest ih =>
    intro logs prevPage
    cases hg : noMoreGuard prevPage with
    | true => rw [LogPager.go_cons_guard self resp rest logs prevPage hg]
    | false =>
      by_cases hs : 400 ≤ resp.status
      · rw [LogPager.go_cons_http self resp rest logs prevPage hg hs]
      · have hs' : resp.status < 400 := Nat.lt_of_not_le hs
        cases hk : resp.json.nextEndDate with
        | none => rw [LogPager.go_cons_done self resp rest logs prevPage hg hs' hk]
        | some v =>
          rw [LogPager.go_cons_next self resp rest logs prevPage hg hs' (by simp [hk])]
          exact ih _ _

theorem LogPager.go_ok_concat (self : LogPager) (script : List (HttpResponse α)) :
    ∀ (logs : List α) (prevPage : Option (Page α)) (l : List α),
      (LogPager.get_all_logs_go self script logs prevPage).1.outcome = .ok l →
      l = logs ++
        ((LogPager.get_all_logs_go self script logs prevPage).1.pages.map Page.logs).flatten := by
  induction script with
  | nil =>
    intro logs prevPage l hl
    rw [LogPager.go_nil] at hl
    simp at hl
  | cons resp rest ih =>
    intro logs prevPage l hl
    cases hg : noMoreGuard prevPage with
    | true =>
      rw [LogPager.go_cons_guard self resp rest logs prevPage hg] at hl
      simp at hl
    | false =>
      by_cases hs : 400 ≤ resp.status
      · rw [LogPager.go_cons_http self resp rest logs prevPage hg hs] at hl
        simp at hl
      · have hs' : resp.status < 400 := Nat.lt_of_not_le hs
        cases hk : resp.json.nextEndDate with
        | none =>
          rw [LogPager.go_cons_done self resp rest logs prevPage hg hs' hk] at hl ⊢
          simp only [Except.ok.injEq] at hl
          subst hl
          simp
        | some v =>
          have hk' : resp.json.nextEndDate.isSome = true := by simp [hk]
          rw [LogPager.go_cons_next self resp rest logs prevPage hg hs' hk'] at hl ⊢
          have := ih (logs ++ resp.json.logs) (some resp.json) l hl
          rw [this]
          simp

theorem LogPager.go_requests_head (self : LogPager) (script : List (HttpResponse α))
    (logs : List α) (prevPage : Option (Page α)) (r : GetRequest) (t : List GetRequest)
    (h : (LogPager.get_all_logs_go self script logs prevPage).1.requests = r :: t) :
    r = self.nextRequest prevPage := by
  cases script with
  | nil =>
    rw [LogPager.go_nil] at h
    simp at h
  | cons resp rest =>
    cases hg : noMoreGuard prevPage with
    | true =>
      rw [LogPager.go_cons_guard self resp rest logs prevPage hg] at h
      simp at h
    | false =>
      by_cases hs : 400 ≤ resp.status
      · rw [LogPager.go_cons_http self resp rest logs prevPage hg hs] at h
        simp only [List.cons.injEq] at h
        exact h.1.symm
      · have hs' : resp.status < 400 := Nat.lt_of_not_le hs
        cases hk : resp.json.nextEndDate with
        | none =>
          rw [LogPager.go_cons_done self resp rest logs prevPage hg hs' hk] at h
          simp only [List.cons.injEq] at h
          exact h.1.symm
        | some v =>
          rw [LogPager.go_cons_next self resp rest logs prevPage hg hs' (by simp [hk])] at h
          simp only [List.cons.injEq] at h
          exact h.1.symm

theorem LogPager.go_two (self : LogPager) (script : List (HttpResponse α)) (logs : List α)
    (prevPage : Option (Page α)) (r1 r2 : GetRequest) (t : List GetRequest)
    (h : (LogPager.get_all_logs_go self script logs prevPage).1.requests = r1 :: r2 :: t) :
    ∃ resp rest, script = resp :: rest ∧
      (LogPager.get_all_logs_go self script logs prevPage).1.pages =
        resp.json ::
          (LogPager.get_all_logs_go self rest (logs ++ resp.json.logs) (some resp.json)).1.pages ∧
      (LogPager.get_all_logs_go self rest (logs ++ resp.json.logs) (some resp.json)).1.requests =
        r2 :: t := by
  cases script with
  | nil =>
    rw [LogPager.go_nil] at h
    simp at h
  | cons resp rest =>
    cases hg : noMoreGuard prevPage with
    | true =>
      rw [LogPager.go_cons_guard self resp rest logs prevPage hg] at h
      simp at h
    | false =>
      by_cases hs : 400 ≤ resp.status
      · rw [LogPager.go_cons_http self resp rest logs prevPage hg hs] at h
        simp at h
      · have hs' : resp.status < 400 := Nat.lt_of_not_le hs
        cases hk : resp.json.nextEndDate with
        | none =>
          rw [LogPager.go_cons_done self resp rest logs prevPage hg hs' hk] at h
          simp at h
        | some v =>
          have hk' : resp.json.nextEndDate.isSome = true := by simp [hk]
          rw [LogPager.go_cons_next self resp rest logs prevPage hg hs' hk'] at h
          simp only [List.cons.injEq] at h
          refine ⟨resp, rest, rfl, ?_, h.2⟩
          rw [LogPager.go_cons_next self resp rest logs prevPage hg hs' hk']

theorem LogPager.go_req_shape (self : LogPager) (script : List (HttpResponse α)) :
    ∀ (logs : List α) (prevPage : Option (Page α)) (req : GetRequest),
      req ∈ (LogPager.get_all_logs_go self script logs prevPage).1.requests →
      ∃ p : Option (Page α), req = self.nextRequest p := by
  induction script with
  | nil =>
    intro logs prevPage req h
    rw [LogPager.go_nil] at h
    simp at h
  | cons resp rest ih =>
    intro logs prevPage req h
    cases hg : noMoreGuard prevPage with
    | true =>
      rw [LogPager.go_cons_guard self resp rest logs prevPage hg] at h
      simp at h
    | false =>
      by_cases hs : 400 ≤ resp.status
      · rw [LogPager.go_cons_http self resp rest logs prevPage hg hs] at h
        simp only [List.mem_singleton] at h
        exact ⟨prevPage, h⟩
      · have hs' : resp.status < 400 := Nat.lt_of_not_le hs
        cases hk : resp.json.nextEndDate with
        | none =>
          rw [LogPager.go_cons_done self resp rest logs prevPage hg hs' hk] at h
          simp only [List.mem_singleton] at h
          exact ⟨prevPage, h⟩
        | some v =>
          rw [LogPager.go_cons_next self resp rest logs prevPage hg hs' (by simp [hk])] at h
          rcases List.mem_cons.mp h with h1 | h1
          · exact ⟨prevPage, h1⟩
          · exact ih _ _ _ h1

theorem LogPager.go_req_prev (self : LogPager) (script : List (HttpResponse α)) :
    ∀ (logs : List α) (prevPage : Option (Page α)) (i : Nat) (req : GetRequest),
      (LogPager.get_all_logs_go self script logs prevPage).1.requests[i]? = some req →
      ∃ p : Option (Page α), req = self.nextRequest p ∧
        (i = 0 → p = prevPage) ∧
        (∀ j, i = j + 1 →
          ∃ q, (LogPager.get_all_logs_go self script logs prevPage).1.pages[j]? = some q ∧
            p = some q) := by
  induction script with
  | nil =>
    intro logs prevPage i req h
    rw [LogPager.go_nil] at h
    simp at h
  | cons resp rest ih =>
    intro logs prevPage i req h
    cases hg : noMoreGuard prevPage with
    | true =>
      rw [LogPager.go_cons_guard self resp rest logs prevPage hg] at h
      simp at h
    | false =>
      by_cases hs : 400 ≤ resp.status
      · rw [LogPager.go_cons_http self resp rest logs prevPage hg hs] at h
        cases i with
        | zero =>
          simp only [List.getElem?_cons_zero, Option.some.injEq] at h
          exact ⟨prevPage, h.symm, fun _ => rfl, fun j hj => absurd hj (by omega)⟩
        | succ i' => simp at h
      · have hs' : resp.status < 400 := Nat.lt_of_not_le hs
        cases hk : resp.json.nextEndDate with
        | none =>
          rw [LogPager.go_cons_done self resp rest logs prevPage hg hs' hk] at h
          cases i with
          | zero =>
            simp only [List.getElem?_cons_zero, Option.some.injEq] at h
            exact ⟨prevPage, h.symm, fun _ => rfl, fun j hj => absurd hj (by omega)⟩
          | succ i' => simp at h
        | some v =>
          have hk' : resp.json.nextEndDate.isSome = true := by simp [hk]
          rw [LogPager.go_cons_next self resp rest logs prevPage hg hs' hk'] at h ⊢
          cases i with
          | zero =>
            simp only [List.getElem?_cons_zero, Option.some.injEq] at h
            exact ⟨prevPage, h.symm, fun _ => rfl, fun j hj => absurd hj (by omega)⟩
          | succ i' =>
            simp only [List.getElem?_cons_succ] at h
            obtain ⟨p, hp, h0, hsucc⟩ := ih (logs ++ resp.json.logs) (some resp.json) i' req h
            refine ⟨p, hp, fun h00 => absurd h00 (by omega), fun j hj => ?_⟩
            have hji : j = i' := by omega
            subst hji
            cases j with
            | zero =>
              refine ⟨resp.json, ?_, h0 rfl⟩
              simp
            | succ j' =>
              obtain ⟨q, hq1, hq2⟩ := hsucc j' rfl
              refine ⟨q, ?_, hq2⟩
              simpa using hq1

theorem LogPager.go_guard_any (self : LogPager) (script : List (HttpResponse α)) (logs : List α)
    (prevPage : Option (Page α)) (h : noMoreGuard prevPage = true) :
    (LogPager.get_all_logs_go self script logs prevPage).1 =
      ⟨[], [], logs, .error .noMorePages⟩ := by
  cases script with
  | nil =>
    rw [LogPager.go_nil]
    simp [h]
  | cons resp rest => rw [LogPager.go_cons_guard self resp rest logs prevPage h]

theorem wellFormed_cons (resp : HttpResponse α) (rest : List (HttpResponse α))
    (h : wellFormedScript (resp :: rest) = true) :
    (∀ v, resp.json.nextEndDate = some v → goodCursorVal v = true) ∧
      wellFormedScript rest = true := by
  rw [wellFormedScript, List.all_cons, Bool.and_eq_true] at h
  refine ⟨fun v hv => ?_, h.2⟩
  have h1 := h.1
  rw [hv] at h1
  exact h1

theorem advancing_dest (r : HttpResponse α) (h : advancing r = true) :
    r.status < 400 ∧ ∃ v, r.json.nextEndDate = some v ∧ goodCursorVal v = true := by
  rw [advancing, Bool.and_eq_true] at h
  refine ⟨of_decide_eq_true h.1, ?_⟩
  cases hk : r.json.nextEndDate with
  | none =>
    have h2 := h.2
    rw [hk] at h2
    simp at h2
  | some v =>
    have h2 := h.2
    rw [hk] at h2
    exact ⟨v, rfl, h2⟩

theorem LogPager.go_not_noMorePages (self : LogPager) (script : List (HttpResponse α)) :
    ∀ (logs : List α) (prevPage : Option (Page α)),
      wellFormedScript script = true → noMoreGuard prevPage = false →
      (LogPager.get_all_logs_go self script logs prevPage).1.outcome ≠
        .error .noMorePages := by
  induction script with
  | nil =>
    intro logs prevPage _ hprev
    rw [LogPager.go_nil]
    simp [hprev]
  | cons resp rest ih =>
    intro logs prevPage hw hprev
    obtain ⟨hw1, hw2⟩ := wellFormed_cons resp rest hw
    by_cases hs : 400 ≤ resp.status
    · rw [LogPager.go_cons_http self resp rest logs prevPage hprev hs]
      simp
    · have hs' : resp.status < 400 := Nat.lt_of_not_le hs
      cases hk : resp.json.nextEndDate with
      | none =>
        rw [LogPager.go_cons_done self resp rest logs prevPage hprev hs' hk]
        simp
      | some v =>
        rw [LogPager.go_cons_next self resp rest logs prevPage hprev hs' (by simp [hk])]
        exact ih _ _ hw2 (noMoreGuard_of_good resp.json v hk (hw1 v hk))

theorem LogPager.go_abort (self : LogPager) (script1 : List (HttpResponse α)) :
    ∀ (logs : List α) (prevPage : Option (Page α)) (resp : HttpResponse α)
      (script2 : List (HttpResponse α)),
      (∀ r ∈ script1, advancing r = true) → noMoreGuard prevPage = false →
      400 ≤ resp.status →
      (LogPager.get_all_logs_go self (script1 ++ resp :: script2) logs prevPage).1.outcome =
          .error (.httpError resp.status) ∧
        (LogPager.get_all_logs_go self
            (script1 ++ resp :: script2) logs prevPage).1.requests.length =
          script1.length + 1 := by
  induction script1 with
  | nil =>
    intro logs prevPage resp script2 _ hprev hs
    rw [List.nil_append, LogPager.go_cons_http self resp script2 logs prevPage hprev hs]
    exact ⟨rfl, rfl⟩
  | cons a rest1 ih =>
    intro logs prevPage resp script2 hadv hprev hs
    obtain ⟨ha1, v, hav, hgood⟩ := advancing_dest a (hadv a (List.mem_cons_self a rest1))
    have hk' : a.json.nextEndDate.isSome = true := by simp [hav]
    rw [List.cons_append,
      LogPager.go_cons_next self a (rest1 ++ resp :: script2) logs prevPage hprev ha1 hk']
    have ihx := ih (logs ++ a.json.logs) (some a.json) resp script2
      (fun r hr => hadv r (List.mem_cons_of_mem a hr))
      (noMoreGuard_of_good a.json v hav hgood) hs
    refine ⟨ihx.1, ?_⟩
    simp only [List.length_cons, ihx.2, List.length_cons]

theorem LogPager.go_falsy_step (self : LogPager) (resp : HttpResponse α)
    (rest : List (HttpResponse α)) (logs : List α) (prevPage : Option (Page α)) (v : PyVal)
    (hg : noMoreGuard prevPage = false) (hs : resp.status < 400)
    (hk : resp.json.nextEndDate = some v) (hv : v.truthy = false) :
    (LogPager.get_all_logs_go self (resp :: rest) logs prevPage).1 =
      ⟨[self.nextRequest prevPage], [resp.json], logs ++ resp.json.logs,
        .error .noMorePages⟩ := by
  have hk' : resp.json.nextEndDate.isSome = true := by simp [hk]
  rw [LogPager.go_cons_next self resp rest logs prevPage hg hs hk']
  have hguard : noMoreGuard (some resp.json) = true := by
    simp [noMoreGuard, nextEndDateOf, hk, hv]
  rw [LogPager.go_guard_any self rest (logs ++ resp.json.logs) (some resp.json) hguard]

theorem LogPager.go_falsy (self : LogPager) (script1 : List (HttpResponse α)) :
    ∀ (logs : List α) (prevPage : Option (Page α)) (resp : HttpResponse α)
      (script2 : List (HttpResponse α)) (v : PyVal),
      (∀ r ∈ script1, advancing r = true) → noMoreGuard prevPage = false →
      resp.status < 400 → resp.json.nextEndDate = some v → v.truthy = false →
      (LogPager.get_all_logs_go self (script1 ++ resp :: script2) logs prevPage).1.outcome =
          .error .noMorePages ∧
        (LogPager.get_all_logs_go self
            (script1 ++ resp :: script2) logs prevPage).1.requests.length =
          script1.length + 1 ∧
        (LogPager.get_all_logs_go self (script1 ++ resp :: script2) logs prevPage).1.pages =
          (script1 ++ [resp]).map HttpResponse.json ∧
        (LogPager.get_all_logs_go self (script1 ++ resp :: script2) logs prevPage).1.acc =
          logs ++ ((script1 ++ [resp]).map (fun r => r.json.logs)).flatten := by
  induction script1 with
  | nil =>
    intro logs prevPage resp script2 v _ hg hs hk hv
    rw [List.nil_append, LogPager.go_falsy_step self resp script2 logs prevPage v hg hs hk hv]
    refine ⟨rfl, rfl, rfl, ?_⟩
    simp
  | cons a rest1 ih =>
    intro logs prevPage resp script2 v hadv hg hs hk hv
    obtain ⟨ha1, w, haw, hgood⟩ := advancing_dest a (hadv a (List.mem_cons_self a rest1))
    have hk' : a.json.nextEndDate.isSome = true := by simp [haw]
    rw [List.cons_append,
      LogPager.go_cons_next self a (rest1 ++ resp :: script2) logs prevPage hg ha1 hk']
    have ihx := ih (logs ++ a.json.logs) (some a.json) resp script2 v
      (fun r hr => hadv r (List.mem_cons_of_mem a hr))
      (noMoreGuard_of_good a.json w haw hgood) hs hk hv
    refine ⟨ihx.1, ?_, ?_, ?_⟩
    · simp only [List.length_cons, ihx.2.1]
    · simp only [List.cons_append, List.map_cons]
      rw [ihx.2.2.1]
    · rw [ihx.2.2.2]
      simp

theorem logsRev.LogPager.get_next_page_guard_old (self : logsRev.LogPager)
    (prevPage : Option (Page α)) (resp : HttpResponse α) (h : noMoreGuard prevPage = true) :
    self.get_next_page prevPage resp = ((none, .error .noMorePages), self) := by
  unfold logsRev.LogPager.get_next_page
  rw [h]
  rfl

theorem logsRev.LogPager.get_next_page_http_old (self : logsRev.LogPager)
    (prevPage : Option (Page α)) (resp : HttpResponse α) (h : noMoreGuard prevPage = false)
    (hs : 400 ≤ resp.status) :
    self.get_next_page prevPage resp =
      ((some (self.nextRequest prevPage), .error (.httpError resp.status)), self) := by
  unfold logsRev.LogPager.get_next_page
  rw [h]
  simp only [Bool.false_eq_true, if_false, if_pos hs]
  rfl

theorem logsRev.LogPager.get_next_page_ok_old (self : logsRev.LogPager)
    (prevPage : Option (Page α)) (resp : HttpResponse α) (h : noMoreGuard prevPage = false)
    (hs : resp.status < 400) :
    self.get_next_page prevPage resp =
      ((some (self.nextRequest prevPage), .ok resp.json), self) := by
  unfold logsRev.LogPager.get_next_page
  rw [h]
  simp only [Bool.false_eq_true, if_false, if_neg (Nat.not_le.mpr hs)]
  rfl

theorem logsRev.LogPager.go_nil_old (self : logsRev.LogPager) (logs : List α)
    (prevPage : Option (Page α)) :
    logsRev.LogPager.get_all_logs_go self [] logs prevPage =
      (⟨[], [], logs, .error (if noMoreGuard prevPage then .noMorePages else .serverSilent)⟩,
        self) := rfl

theorem logsRev.LogPager.go_cons_guard_old (self : logsRev.LogPager) (resp : HttpResponse α)
    (rest : List (HttpResponse α)) (logs : List α) (prevPage : Option (Page α))
    (h : noMoreGuard prevPage = true) :
    logsRev.LogPager.get_all_logs_go self (resp :: rest) logs prevPage =
      (⟨[], [], logs, .error .noMorePages⟩, self) := by
  unfold logsRev.LogPager.get_all_logs_go
  rw [logsRev.LogPager.get_next_page_guard_old self prevPage resp h]
  rfl

theorem logsRev.LogPager.go_cons_http_old (self : logsRev.LogPager) (resp : HttpResponse α)
    (rest : List (HttpResponse α)) (logs : List α) (prevPage : Option (Page α))
    (h : noMoreGuard prevPage = false) (hs : 400 ≤ resp.status) :
    logsRev.LogPager.get_all_logs_go self (resp :: rest) logs prevPage =
      (⟨[self.nextRequest prevPage], [], logs, .error (.httpError resp.status)⟩, self) := by
  unfold logsRev.LogPager.get_all_logs_go
  rw [logsRev.LogPager.get_next_page_http_old self prevPage resp h hs]
  rfl

theorem logsRev.LogPager.go_cons_done_old (self : logsRev.LogPager) (resp : HttpResponse α)
    (rest : List (HttpResponse α)) (logs : List α) (prevPage : Option (Page α))
    (h : noMoreGuard prevPage = false) (hs : resp.status < 400)
    (hk : resp.json.nextEndDate = none) :
    logsRev.LogPager.get_all_logs_go self (resp :: rest) logs prevPage =
      (⟨[self.nextRequest prevPage], [resp.json], logs ++ resp.json.logs,
        .ok (logs ++ resp.json.logs)⟩, self) := by
  unfold logsRev.LogPager.get_all_logs_go
  rw [logsRev.LogPager.get_next_page_ok_old self prevPage resp h hs]
  simp [hk]

theorem logsRev.LogPager.go_cons_next_old (self : logsRev.LogPager) (resp : HttpResponse α)
    (rest : List (HttpResponse α)) (logs : List α) (prevPage : Option (Page α))
    (h : noMoreGuard prevPage = false) (hs : resp.status < 400)
    (hk : resp.json.nextEndDate.isSome = true) :
    logsRev.LogPager.get_all_logs_go self (resp :: rest) logs prevPage =
      (⟨self.nextRequest prevPage ::
          (logsRev.LogPager.get_all_logs_go self rest
            (logs ++ resp.json.logs) (some resp.json)).1.requests,
        resp.json ::
          (logsRev.LogPager.get_all_logs_go self rest
            (logs ++ resp.json.logs) (some resp.json)).1.pages,
        (logsRev.LogPager.get_all_logs_go self rest
          (logs ++ resp.json.logs) (some resp.json)).1.acc,
        (logsRev.LogPager.get_all_logs_go self rest
          (logs ++ resp.json.logs) (some resp.json)).1.outcome⟩,
       (logsRev.LogPager.get_all_logs_go self rest
         (logs ++ resp.json.logs) (some resp.json)).2) := by
  conv =>
    lhs
    rw [logsRev.LogPager.get_all_logs_go]
    rw [logsRev.LogPager.get_next_page_ok_old self prevPage resp h hs]
  simp [hk]

theorem go_agree (e : String) (q : Dict) (hd : List (String × String))
    (script : List (HttpResponse α)) :
    ∀ (logs : List α) (prevPage : Option (Page α)),
      (logsRev.LogPager.get_all_logs_go ⟨e, q, hd⟩ script logs prevPage).1 =
        (LogPager.get_all_logs_go ⟨e, q, hd⟩ script logs prevPage).1 := by
  induction script with
  | nil =>
    intro logs prevPage
    rw [logsRev.LogPager.go_nil_old, LogPager.go_nil]
  | cons resp rest ih =>
    intro logs prevPage
    cases hg : noMoreGuard prevPage with
    | true =>
      rw [logsRev.LogPager.go_cons_guard_old _ resp rest logs prevPage hg,
        LogPager.go_cons_guard _ resp rest logs prevPage hg]
    | false =>
      by_cases hs : 400 ≤ resp.status
      · rw [logsRev.LogPager.go_cons_http_old _ resp rest logs prevPage hg hs,
          LogPager.go_cons_http _ resp rest logs prevPage hg hs]
        rfl
      · have hs' : resp.status < 400 := Nat.lt_of_not_le hs
        cases hk : resp.json.nextEndDate with
        | none =>
          rw [logsRev.LogPager.go_cons_done_old _ resp rest logs prevPage hg hs' hk,
            LogPager.go_cons_done _ resp rest logs prevPage hg hs' hk]
          rfl
        | some v =>
          rw [logsRev.LogPager.go_cons_next_old _ resp rest logs prevPage hg hs' (by simp [hk]),
            LogPager.go_cons_next _ resp rest logs prevPage hg hs' (by simp [hk])]
          rw [ih (logs ++ resp.json.logs) (some resp.json)]
          rfl

/-! The claim theorems. -/

/-- C1: over a well-formed server page sequence (every `nextEndDate` present
is non-null and non-empty), any run of `LogPager.get_all_logs` that returns a
list returns exactly the concatenation of the fetched pages' `logs` arrays in
page-fetch order, so its length is the sum of the fetched pages' entry
counts — no entry duplicated, none skipped. -/
theorem spec_C1 (self : LogPager) (script : List (HttpResponse α))
    (_hw : wellFormedScript script = true) (l : List α)
    (hret : (self.get_all_logs script).1.outcome = .ok l) :
    l = ((self.get_all_logs script).1.pages.map Page.logs).flatten ∧
      l.length = ((self.get_all_logs script).1.pages.map (fun p => p.logs.length)).sum := by
  have h := LogPager.go_ok_concat self script [] none l hret
  rw [List.nil_append] at h
  refine ⟨h, ?_⟩
  rw [h]
  simp only [List.length_flatten, List.map_map]
  rfl

/-- C1 witness: the three-page sample run returns the six entries in page
order, and their count is the sum of the three page sizes. -/
theorem spec_C1_witness :
    wellFormedScript sampleScript = true ∧
      (samplePager.get_all_logs sampleScript).1.outcome = .ok [10, 11, 12, 13, 14, 15] ∧
      ([10, 11, 12, 13, 14, 15] =
          ((samplePager.get_all_logs sampleScript).1.pages.map Page.logs).flatten ∧
        ([10, 11, 12, 13, 14, 15] : List Nat).length =
          ((samplePager.get_all_logs sampleScript).1.pages.map (fun p => p.logs.length)).sum) :=
  ⟨rfl, rfl, spec_C1 samplePager sampleScript rfl [10, 11, 12, 13, 14, 15] rfl⟩

/-- C2: when the first fetch answers with two entries plus both continuation
fields and the second fetch answers with one entry and no continuation
fields, `get_all_logs` issues exactly two requests and returns the three
entries in order. -/
theorem spec_C2 (e1 e2 e3 : α) (self : LogPager) :
    (self.get_all_logs (twoPageScript e1 e2 e3)).1.requests.length = 2 ∧
      (self.get_all_logs (twoPageScript e1 e2 e3)).1.outcome = .ok [e1, e2, e3] :=
  ⟨rfl, rfl⟩

/-- C4: in any run issuing at least two requests, the second request's query
parameters bind `end_date` to exactly the first page's `nextEndDate` value
and `skip` to exactly the first page's `nextSkip` value. -/
theorem spec_C4 (self : LogPager) (script : List (HttpResponse α)) (r1 r2 : GetRequest)
    (t : List GetRequest)
    (h : (self.get_all_logs script).1.requests = r1 :: r2 :: t) :
    ∃ p1 pt, (self.get_all_logs script).1.pages = p1 :: pt ∧
      Dict.lookup? r2.params "end_date" = some (p1.nextEndDate.getD .null) ∧
      Dict.lookup? r2.params "skip" = some (p1.nextSkip.getD .null) := by
  obtain ⟨resp, rest, hscr, hpages, hreq⟩ := LogPager.go_two self script [] none r1 r2 t h
  have hr2 := LogPager.go_requests_head self rest ([] ++ resp.json.logs) (some resp.json) r2 t hreq
  refine ⟨resp.json, _, hpages, ?_, ?_⟩
  · rw [hr2, LogPager.nextRequest_params]
    rw [Dict.lookup_set_ne _ _ _ _ (by decide), Dict.lookup_set_self]
    rfl
  · rw [hr2, LogPager.nextRequest_params]
    rw [Dict.lookup_set_self]
    rfl

/-- C4 witness: in the three-page sample run the second request carries the
first page's cursor values. -/
theorem spec_C4_witness :
    (samplePager.get_all_logs sampleScript).1.requests =
        samplePager.nextRequest (none : Option (Page Nat)) ::
          samplePager.nextRequest (some samplePage1) ::
          [samplePager.nextRequest (some samplePage2)] ∧
      ∃ p1 pt, (samplePager.get_all_logs sampleScript).1.pages = p1 :: pt ∧
        Dict.lookup? (samplePager.nextRequest (some samplePage1)).params "end_date" =
          some (p1.nextEndDate.getD .null) ∧
        Dict.lookup? (samplePager.nextRequest (some samplePage1)).params "skip" =
          some (p1.nextSkip.getD .null) :=
  ⟨rfl, spec_C4 samplePager sampleScript (samplePager.nextRequest (none : Option (Page Nat)))
    (samplePager.nextRequest (some samplePage1)) [samplePager.nextRequest (some samplePage2)] rfl⟩

/-- C5: termination is decided solely by presence of `nextEndDate` in the
last fetched page, after every fetch including the first.  First conjunct: at
any loop state, a fetched page without the key is appended and the loop
returns with no further request.  Second: a single-page response yields
exactly that page's entries with exactly one request.  Third: over a
well-formed page sequence the `noMorePages` error branch is unreachable from
`get_all_logs`. -/
theorem spec_C5 {α : Type} :
    (∀ (self : LogPager) (resp : HttpResponse α) (rest : List (HttpResponse α))
        (logs : List α) (prevPage : Option (Page α)),
        noMoreGuard prevPage = false → resp.status < 400 → resp.json.nextEndDate = none →
        (LogPager.get_all_logs_go self (resp :: rest) logs prevPage).1 =
          ⟨[self.nextRequest prevPage], [resp.json], logs ++ resp.json.logs,
            .ok (logs ++ resp.json.logs)⟩) ∧
      (∀ (self : LogPager) (resp : HttpResponse α) (rest : List (HttpResponse α)),
        resp.status < 400 → resp.json.nextEndDate = none →
        (self.get_all_logs (resp :: rest)).1.requests.length = 1 ∧
          (self.get_all_logs (resp :: rest)).1.outcome = .ok resp.json.logs) ∧
      (∀ (self : LogPager) (script : List (HttpResponse α)),
        wellFormedScript script = true →
        (self.get_all_logs script).1.outcome ≠ .error .noMorePages) := by
  refine ⟨?_, ?_, ?_⟩
  · intro self resp rest logs prevPage hg hs hk
    rw [LogPager.go_cons_done self resp rest logs prevPage hg hs hk]
  · intro self resp rest hs hk
    have h := LogPager.go_cons_done self resp rest [] none noMoreGuard_none hs hk
    constructor
    · show (LogPager.get_all_logs_go self (resp :: rest) [] none).1.requests.length = 1
      rw [h]
      rfl
    · show (LogPager.get_all_logs_go self (resp :: rest) [] none).1.outcome = .ok resp.json.logs
      rw [h]
      rfl
  · intro self script hw
    exact LogPager.go_not_noMorePages self script [] none hw noMoreGuard_none

/-- C5 witness: a single terminal page gives one request and that page's
entries, and the well-formed three-page sample run never reaches the
`noMorePages` branch. -/
theorem spec_C5_witness :
    ((samplePager.get_all_logs [⟨200, samplePage3⟩]).1.requests.length = 1 ∧
        (samplePager.get_all_logs [⟨200, samplePage3⟩]).1.outcome = .ok [13, 14, 15]) ∧
      (samplePager.get_all_logs sampleScript).1.outcome ≠ .error .noMorePages :=
  ⟨(@spec_C5 Nat).2.1 samplePager ⟨200, samplePage3⟩ [] (by decide) rfl,
    (@spec_C5 Nat).2.2 samplePager sampleScript rfl⟩

/-- C10: whenever any fetched page — at any position of the walk — carries
the `nextEndDate` key bound to a falsy value, the loop first appends that
page's entries (key presence keeps `has_next` true), then the next
`get_next_page` call's truthiness guard raises `noMorePages` before issuing
any further request, so the session fails instead of terminating normally.
First conjunct: at an arbitrary loop state, the falsy-cursor page is the
last one fetched, its entries are appended, and the run ends in the
`noMorePages` error with no further request.  Second conjunct: from
`get_all_logs`, after any advancing prefix, the run ends in `noMorePages`
with exactly one request beyond the prefix, the falsy-cursor page decoded
last, and its entries appended to the accumulator. -/
theorem spec_C10 {α : Type} :
    (∀ (self : LogPager) (resp : HttpResponse α) (rest : List (HttpResponse α))
        (logs : List α) (prevPage : Option (Page α)) (v : PyVal),
        noMoreGuard prevPage = false → resp.status < 400 →
        resp.json.nextEndDate = some v → v.truthy = false →
        (LogPager.get_all_logs_go self (resp :: rest) logs prevPage).1 =
          ⟨[self.nextRequest prevPage], [resp.json], logs ++ resp.json.logs,
            .error .noMorePages⟩) ∧
      (∀ (self : LogPager) (script1 : List (HttpResponse α)) (resp : HttpResponse α)
        (script2 : List (HttpResponse α)) (v : PyVal),
        (∀ r ∈ script1, advancing r = true) → resp.status < 400 →
        resp.json.nextEndDate = some v → v.truthy = false →
        (self.get_all_logs (script1 ++ resp :: script2)).1.outcome =
            .error .noMorePages ∧
          (self.get_all_logs (script1 ++ resp :: script2)).1.requests.length =
            script1.length + 1 ∧
          (self.get_all_logs (script1 ++ resp :: script2)).1.pages =
            (script1 ++ [resp]).map HttpResponse.json ∧
          (self.get_all_logs (script1 ++ resp :: script2)).1.acc =
            ((script1 ++ [resp]).map (fun r => r.json.logs)).flatten) := by
  constructor
  · intro self resp rest logs prevPage v hg hs hk hv
    exact LogPager.go_falsy_step self resp rest logs prevPage v hg hs hk hv
  · intro self script1 resp script2 v hadv hs hk hv
    have h := LogPager.go_falsy self script1 [] none resp script2 v hadv
      noMoreGuard_none hs hk hv
    refine ⟨h.1, h.2.1, h.2.2.1, ?_⟩
    have hacc := h.2.2.2
    rwa [List.nil_append] at hacc

/-- C10 witness: a falsy-bound `nextEndDate` fails the session both when it
arrives on the first page and when it arrives on the second page after an
advancing first page — in each case with no request beyond the falsy one. -/
theorem spec_C10_witness :
    (LogPager.get_all_logs_go samplePager [⟨200, nullCursorPage⟩] [] none).1 =
        ⟨[samplePager.nextRequest (none : Option (Page Nat))], [nullCursorPage], [7],
          .error .noMorePages⟩ ∧
      (samplePager.get_all_logs
          ([⟨200, samplePage1⟩] ++ ⟨200, nullCursorPage⟩ :: [])).1.outcome =
        .error .noMorePages ∧
      (samplePager.get_all_logs
          ([⟨200, samplePage1⟩] ++ ⟨200, nullCursorPage⟩ :: [])).1.requests.length = 2 :=
  ⟨(@spec_C10 Nat).1 samplePager ⟨200, nullCursorPage⟩ [] [] none .null rfl
      (by decide) rfl rfl,
    ((@spec_C10 Nat).2 samplePager [⟨200, samplePage1⟩] ⟨200, nullCursorPage⟩ [] .null
      (by decide) (by decide) rfl rfl).1,
    ((@spec_C10 Nat).2 samplePager [⟨200, samplePage1⟩] ⟨200, nullCursorPage⟩ [] .null
      (by decide) (by decide) rfl rfl).2.1⟩

/-- C3 counterexample: with a filter set containing an `end_date` bound (as
`main` always supplies), the issued requests do not carry every key-value
pair of the filter set unchanged — the dict merge in `get_next_page`
overwrites `end_date` with the cursor value (`None` on the first request). -/
theorem spec_C3_cex :
    ¬ ∀ req ∈ (samplePager.get_all_logs sampleScript).1.requests,
        ∀ kv ∈ sampleFilters, Dict.lookup? req.params kv.1 = some kv.2 := by
  decide

/-- C3 amended: every key-value pair of the filter set whose key is neither
`end_date` nor `skip` is carried unchanged in every request of the walk
(first conjunct), while the `end_date` and `skip` query parameters of every
request are always bound to the cursor fields taken from the page fetched
just before it — `None`/`None` on the first request, and the prior page's
`nextEndDate`/`nextSkip` (read with `get`, so `None` when absent) on every
later request (second conjunct). -/
theorem spec_C3_amended (self : LogPager) (script : List (HttpResponse α)) :
    (∀ req ∈ (self.get_all_logs script).1.requests, ∀ (k : String) (v : PyVal),
        k ≠ "end_date" → k ≠ "skip" → Dict.lookup? self.query_params k = some v →
        Dict.lookup? req.params k = some v) ∧
      (∀ (i : Nat) (req : GetRequest), (self.get_all_logs script).1.requests[i]? = some req →
        ∃ p : Option (Page α),
          Dict.lookup? req.params "end_date" = some (nextEndDateOf p) ∧
            Dict.lookup? req.params "skip" = some (nextSkipOf p) ∧
            (i = 0 → p = none) ∧
            ∀ j, i = j + 1 →
              ∃ q, (self.get_all_logs script).1.pages[j]? = some q ∧ p = some q) := by
  constructor
  · intro req hreq k v hk1 hk2 hv
    obtain ⟨p, rfl⟩ := LogPager.go_req_shape self script [] none req hreq
    rw [LogPager.nextRequest_params]
    rw [Dict.lookup_set_ne _ _ _ _ hk2, Dict.lookup_set_ne _ _ _ _ hk1]
    exact hv
  · intro i req h
    obtain ⟨p, rfl, h0, hsucc⟩ := LogPager.go_req_prev self script [] none i req h
    refine ⟨p, ?_, ?_, h0, hsucc⟩
    · rw [LogPager.nextRequest_params, Dict.lookup_set_ne _ _ _ _ (by decide),
        Dict.lookup_set_self]
    · rw [LogPager.nextRequest_params, Dict.lookup_set_self]

/-- C3 amended, witness: in the sample run the `start_date` filter pair is
carried unchanged in the first request, and that first request's `end_date`
is the overwritten cursor value `None` rather than the filter's bound. -/
theorem spec_C3_amended_witness :
    Dict.lookup? (samplePager.nextRequest (none : Option (Page Nat))).params "start_date" =
        some (.vstr "2024-01-01T00:00:00.000Z") ∧
      Dict.lookup? (samplePager.nextRequest (none : Option (Page Nat))).params "end_date" =
        some PyVal.null :=
  ⟨(spec_C3_amended samplePager sampleScript).1
      (samplePager.nextRequest (none : Option (Page Nat))) (by decide) "start_date"
      (PyVal.vstr "2024-01-01T00:00:00.000Z") (by decide) (by decide) rfl,
    by
      obtain ⟨p, h1, h2, h3, h4⟩ := (spec_C3_amended samplePager sampleScript).2 0
        (samplePager.nextRequest (none : Option (Page Nat))) rfl
      rw [h3 rfl] at h1
      exact h1⟩

/-- C6: a non-success status on any fetch — here the one following a block
of advancing pages — makes the run end with the underlying HTTP error: no
list is returned in any form, and no request beyond the failing one is
issued. -/
theorem spec_C6 (self : LogPager) (script1 : List (HttpResponse α)) (resp : HttpResponse α)
    (script2 : List (HttpResponse α)) (hadv : ∀ r ∈ script1, advancing r = true)
    (hs : 400 ≤ resp.status) :
    (self.get_all_logs (script1 ++ resp :: script2)).1.outcome =
        .error (.httpError resp.status) ∧
      (self.get_all_logs (script1 ++ resp :: script2)).1.requests.length =
        script1.length + 1 ∧
      ∀ l : List α, (self.get_all_logs (script1 ++ resp :: script2)).1.outcome ≠ .ok l := by
  have h := LogPager.go_abort self script1 [] none resp script2 hadv noMoreGuard_none hs
  have h1 : (self.get_all_logs (script1 ++ resp :: script2)).1.outcome =
      .error (.httpError resp.status) := h.1
  refine ⟨h1, h.2, fun l hl => ?_⟩
  rw [h1] at hl
  simp at hl

/-- C6 witness: a 500 on page 2 of 3 aborts with the HTTP error after
exactly two requests. -/
theorem spec_C6_witness :
    (samplePager.get_all_logs
        ([⟨200, samplePage1⟩] ++ ⟨500, samplePage2⟩ :: [⟨200, samplePage3⟩])).1.outcome =
        .error (.httpError 500) ∧
      (samplePager.get_all_logs
          ([⟨200, samplePage1⟩] ++ ⟨500, samplePage2⟩ ::
            [⟨200, samplePage3⟩])).1.requests.length = 2 :=
  ⟨(spec_C6 samplePager [⟨200, samplePage1⟩] ⟨500, samplePage2⟩ [⟨200, samplePage3⟩]
      (by decide) (by decide)).1,
    (spec_C6 samplePager [⟨200, samplePage1⟩] ⟨500, samplePage2⟩ [⟨200, samplePage3⟩]
      (by decide) (by decide)).2.1⟩

/-- C7: `authenticate` performs exactly one POST to the login endpoint with
the JSON body `{"username": public key, "apiKey": private key}`; on a
success status with `access_token` present it returns that field's value,
and on a non-success status or a body lacking the field it raises the
corresponding error without retrying. -/
theorem spec_C7 (public_api_key private_api_key : String) (resp : AuthResponse) :
    (authenticate public_api_key private_api_key resp).1 =
        [authRequest public_api_key private_api_key] ∧
      (∀ tok, resp.status < 400 → Dict.lookup? resp.json "access_token" = some tok →
        (authenticate public_api_key private_api_key resp).2 = .ok tok) ∧
      (400 ≤ resp.status →
        (authenticate public_api_key private_api_key resp).2 =
          .error (.httpError resp.status)) ∧
      (resp.status < 400 → Dict.lookup? resp.json "access_token" = none →
        (authenticate public_api_key private_api_key resp).2 = .error .keyError) := by
  refine ⟨?_, ?_, ?_, ?_⟩
  · by_cases hs : 400 ≤ resp.status
    · rw [authenticate_http _ _ _ hs]
    · cases hl : Dict.lookup? resp.json "access_token" with
      | none => rw [authenticate_missing _ _ _ hs hl]
      | some tok => rw [authenticate_token _ _ _ _ hs hl]
  · intro tok hs hl
    rw [authenticate_token _ _ _ _ (Nat.not_le.mpr hs) hl]
  · intro hs
    rw [authenticate_http _ _ _ hs]
  · intro hs hl
    rw [authenticate_missing _ _ _ (Nat.not_le.mpr hs) hl]

/-- C7 witness: a 200 login response carrying `access_token` yields exactly
the one POST request and the token value. -/
theorem spec_C7_witness :
    (authenticate "pubkey" "privkey" ⟨200, [("access_token", .vstr "tok123")]⟩).1 =
        [authRequest "pubkey" "privkey"] ∧
      (200 : Nat) < 400 ∧
      Dict.lookup? [("access_token", PyVal.vstr "tok123")] "access_token" =
        some (.vstr "tok123") ∧
      (authenticate "pubkey" "privkey" ⟨200, [("access_token", .vstr "tok123")]⟩).2 =
        .ok (.vstr "tok123") :=
  ⟨(spec_C7 "pubkey" "privkey" ⟨200, [("access_token", PyVal.vstr "tok123")]⟩).1,
    by decide, rfl,
    (spec_C7 "pubkey" "privkey" ⟨200, [("access_token", PyVal.vstr "tok123")]⟩).2.1
      (PyVal.vstr "tok123") (by decide) rfl⟩

/-- C8: neither `get_next_page` nor `get_all_logs` mutates the pager's
attribute record — `logs_endpoint`, `query_params` and `auth_headers` equal
their pre-call values after every call, for every previous page, response
and server script. -/
theorem spec_C8 (self : LogPager) (prevPage : Option (Page α)) (resp : HttpResponse α)
    (script : List (HttpResponse α)) :
    ((self.get_next_page prevPage resp).2.logs_endpoint = self.logs_endpoint ∧
      (self.get_next_page prevPage resp).2.query_params = self.query_params ∧
      (self.get_next_page prevPage resp).2.auth_headers = self.auth_headers) ∧
    ((self.get_all_logs script).2.logs_endpoint = self.logs_endpoint ∧
      (self.get_all_logs script).2.query_params = self.query_params ∧
      (self.get_all_logs script).2.auth_headers = self.auth_headers) := by
  have h1 : (self.get_next_page prevPage resp).2 = self := by
    cases hg : noMoreGuard prevPage with
    | true => rw [LogPager.get_next_page_guard self prevPage resp hg]
    | false =>
      by_cases hs : 400 ≤ resp.status
      · rw [LogPager.get_next_page_http self prevPage resp hg hs]
      · rw [LogPager.get_next_page_ok self prevPage resp hg (Nat.lt_of_not_le hs)]
  have h2 : (self.get_all_logs script).2 = self := LogPager.go_post self script [] none
  rw [h1, h2]
  exact ⟨⟨rfl, rfl, rfl⟩, rfl, rfl, rfl⟩

/-- C9: the earlier pager revision in `src/logs.py` and the final one in
`src/log_pager.py` are behaviorally equivalent — on the same constructor
inputs and the same server script they issue the same requests (URLs,
headers, query parameters), decode the same pages, and produce the same
accumulated result, differing only in logging side effects. -/
theorem spec_C9 (project_id app_id access_token : String) (query_params : Dict)
    (script : List (HttpResponse α)) :
    ((logsRev.LogPager.init project_id app_id access_token query_params).get_all_logs
        script).1 =
      ((LogPager.init project_id app_id access_token query_params).get_all_logs script).1 :=
  go_agree (ADMIN_API_BASE_URL ++ "/groups/" ++ project_id ++ "/apps/" ++ app_id ++ "/logs")
    query_params [("Authorization", "Bearer " ++ access_token)] script [] none

end AtlasLogs
